import Mathlib

/-!
Shallow embedding of the quadrotor dynamics notebook `3-3D-Quadrotor.ipynb`
(repository `skydio-quadrotor`).

Scalars are real numbers; 3- and 4-vectors are functions out of `Fin 3` /
`Fin 4`; the orientation `Rot3` is identified with its raw quaternion storage
(xyzw order, as the notebook's `dRot3` reads it via `to_storage`).  Fallible
numerical code (`np.linalg.inv` on a singular matrix raises) is embedded as
`Option`-valued code.
-/

namespace Quadrotor

open Matrix

set_option linter.unusedVariables false

abbrev Vec3 := Fin 3 → ℝ

abbrev Vec4 := Fin 4 → ℝ

abbrev Mat3 := Matrix (Fin 3) (Fin 3) ℝ

/-- The quaternion storage of a symforce `Rot3`, in xyzw order. -/
abbrev Rot3 := Vec4

/-- The `Params` dataclass of the notebook: a plain record of physical
constants with the notebook's default values; the dataclass performs no
validation of any field at construction. -/
structure Params where
  mass : ℝ
  inertia : Mat3
  rotor_diameter : ℝ
  static_thrust_coefficient : ℝ
  static_torque_coefficient : ℝ
  arm_length : ℝ
  g : ℝ
  rho : ℝ

/-- The notebook's global `p = Params()` with all default field values. -/
noncomputable def p : Params where
  mass := 1.352
  inertia := Matrix.diagonal ![9.8e-3, 10.02e-3, 18.6e-3]
  rotor_diameter := 10 * 0.0254
  static_thrust_coefficient := 0.14553
  static_torque_coefficient := 0.01047
  arm_length := 0.3814 / 2
  g := 9.80665
  rho := 1.225

/-- `Params.rotor_model`: propeller-disk scaling law
`rho * static_coefficient * rotor_diameter^4 / (4 pi^2)`. -/
noncomputable def Params.rotor_model (par : Params) (static_coefficient : ℝ) : ℝ :=
  par.rho * static_coefficient * par.rotor_diameter ^ 4 / (4 * Real.pi ^ 2)

/-- `Params.k_thrust` property. -/
noncomputable def Params.k_thrust (par : Params) : ℝ :=
  par.rotor_model par.static_thrust_coefficient

/-- `Params.k_torque` property. -/
noncomputable def Params.k_torque (par : Params) : ℝ :=
  par.rotor_model par.static_torque_coefficient

/-- The `QuadrotorState` dataclass (also used, as in the notebook, as the
container for state derivatives). -/
structure QuadrotorState where
  position : Vec3
  orientation : Rot3
  velocity : Vec3
  angular_velocity : Vec3

/-- `np.cross` for 3-vectors, as used in `state_derivative`. -/
def cross3 (a b : Vec3) : Vec3 :=
  ![a 1 * b 2 - a 2 * b 1, a 2 * b 0 - a 0 * b 2, a 0 * b 1 - a 1 * b 0]

/-- Modelled from the spec: rotation of a 3-vector by the orientation
quaternion (active rotation, body to world).  The `Rot3` type and its
vector-rotation operator come from the external `sym` (symforce) library and
are not part of this repository's sources; this is the standard unit-quaternion
rotation formula `v + 2 w (q x v) + 2 q x (q x v)` with `q` the vector part
and `w` the scalar part of the xyzw-stored quaternion. -/
def rotate (R : Rot3) (v : Vec3) : Vec3 :=
  fun i =>
    v i + 2 * R 3 * cross3 ![R 0, R 1, R 2] v i
      + 2 * cross3 ![R 0, R 1, R 2] (cross3 ![R 0, R 1, R 2] v) i

/-- The 3x4 matrix `G` that `dRot3` builds from the quaternion's own storage
components `(q0, q1, q2, q3)` (xyzw order). -/
def G (R : Rot3) : Matrix (Fin 3) (Fin 4) ℝ :=
  !![R 3, R 2, -(R 1), -(R 0);
     -(R 2), R 3, R 0, -(R 1);
     R 1, -(R 0), R 3, -(R 2)]

/-- `dRot3(R, omega)`: the quaternion time-derivative `(G.T @ omega) / 2`,
returned (as in the notebook) as raw `Rot3` storage. -/
noncomputable def dRot3 (R : Rot3) (omega : Vec3) : Rot3 :=
  fun j => (G R)ᵀ.mulVec omega j / 2

/-- `FullQuadrotorDynamics.rotor_thrust_model`:
`thrusts = rotor_rates * rotor_rates * p.k_thrust`, elementwise. -/
noncomputable def rotor_thrust_model (par : Params) (rotor_rates : Vec4) : Vec4 :=
  fun i => rotor_rates i * rotor_rates i * par.k_thrust

/-- The mixing matrix built inside `FullQuadrotorDynamics.step`, with
`L = p.arm_length` and `m_t = p.k_torque / p.k_thrust`. -/
noncomputable def mixing_matrix (par : Params) : Matrix (Fin 4) (Fin 4) ℝ :=
  !![1, 1, 1, 1;
     0, par.arm_length, 0, -par.arm_length;
     -par.arm_length, 0, par.arm_length, 0;
     par.k_torque / par.k_thrust, -(par.k_torque / par.k_thrust),
       par.k_torque / par.k_thrust, -(par.k_torque / par.k_thrust)]

/-- `u = mixing_matrix @ [F1, F2, F3, F4]` in `step`. -/
noncomputable def mixed (par : Params) (rotor_rates : Vec4) : Fin 4 → ℝ :=
  (mixing_matrix par).mulVec (rotor_thrust_model par rotor_rates)

/-- `u1 = u[0]`: total thrust. -/
noncomputable def u1_of (par : Params) (rotor_rates : Vec4) : ℝ :=
  mixed par rotor_rates 0

/-- `u2 = u[1:4]`: the three body-frame torques. -/
noncomputable def u2_of (par : Params) (rotor_rates : Vec4) : Vec3 :=
  ![mixed par rotor_rates 1, mixed par rotor_rates 2, mixed par rotor_rates 3]

/-- `FullQuadrotorDynamics.state_derivative(t, state, u1, u2)`.
Faithful to the notebook's active lines:
`accel = (np.array([0, 0, -p.g]) + R * np.array([0, 0, u1])) / p.mass`
(the whole sum, gravity term included, is divided by `p.mass`), and
`angular_accel = np.linalg.inv(I) @ (u2 - np.cross(w, I @ w))` with `u2`
applied directly in the body frame (the world-frame variant using `M = R * u2`
is commented out in the source).  `np.linalg.inv` raises on a singular matrix,
embedded here as the `none` branch. -/
noncomputable def state_derivative (par : Params) (t : ℝ) (state : QuadrotorState)
    (u1 : ℝ) (u2 : Vec3) : Option QuadrotorState :=
  if (par.inertia).det = 0 then none
  else
    some
      { position := state.velocity
        velocity := fun i =>
          (![0, 0, -par.g] i + rotate state.orientation ![0, 0, u1] i) / par.mass
        orientation := dRot3 state.orientation state.angular_velocity
        angular_velocity :=
          (par.inertia)⁻¹.mulVec
            (u2 - cross3 state.angular_velocity
              ((par.inertia).mulVec state.angular_velocity)) }

/-- `QuadrotorState.to_state_vector`: position(3), velocity(3),
orientation(4, xyzw storage), angular_velocity(3). -/
def QuadrotorState.to_state_vector (s : QuadrotorState) : Fin 13 → ℝ :=
  ![s.position 0, s.position 1, s.position 2,
    s.velocity 0, s.velocity 1, s.velocity 2,
    s.orientation 0, s.orientation 1, s.orientation 2, s.orientation 3,
    s.angular_velocity 0, s.angular_velocity 1, s.angular_velocity 2]

/-- Modelled from the spec: the mid-integration reconstitution of a
`QuadrotorState` from the flat vector (the `QuadrotorState.from_state_vector`
used inside the ODE right-hand side lives in `quadrotor/dynamics.py`, which is
not among the sources).  Per the spec the quaternion is integrated like any
other state component and is NOT renormalized mid-integration. -/
def from_state_vector_raw (y : Fin 13 → ℝ) : QuadrotorState where
  position := ![y 0, y 1, y 2]
  velocity := ![y 3, y 4, y 5]
  orientation := ![y 6, y 7, y 8, y 9]
  angular_velocity := ![y 10, y 11, y 12]

/-- Euclidean norm of the quaternion storage. -/
noncomputable def quatNorm (q : Vec4) : ℝ :=
  Real.sqrt (q 0 ^ 2 + q 1 ^ 2 + q 2 ^ 2 + q 3 ^ 2)

/-- Modelled from the spec: the end-of-macro-step reconstitution of the
`State` from the integrated vector (`quadrotor/dynamics.py`, not among the
sources), which per the spec renormalizes the orientation to unit norm. -/
noncomputable def reconstitute (y : Fin 13 → ℝ) : QuadrotorState where
  position := ![y 0, y 1, y 2]
  velocity := ![y 3, y 4, y 5]
  orientation := fun i => ![y 6, y 7, y 8, y 9] i / quatNorm ![y 6, y 7, y 8, y 9]
  angular_velocity := ![y 10, y 11, y 12]

/-- The local `state_derivative_wrapped` closure of `step`: the flat-vector
form of `state_derivative` under fixed `u1`, `u2` (zero-order hold). -/
noncomputable def wrapped_derivative (par : Params) (u1 : ℝ) (u2 : Vec3) :
    ℝ → (Fin 13 → ℝ) → Option (Fin 13 → ℝ) :=
  fun t y =>
    (state_derivative par t (from_state_vector_raw y) u1 u2).map
      QuadrotorState.to_state_vector

/-- `FullQuadrotorDynamics.step(t, input)`: rotor thrusts, mixing into
`(u1, u2)`, integration of the wrapped derivative over one macro-step, and
reconstitution of the stored/returned state.  The internal variable-step ODE
solver (`scipy.integrate.solve_ivp`) is external code, so `step` is
parametrized by the solver `solve`, which maps the right-hand side, the
macro-step length and the initial flat vector to the final flat vector. -/
noncomputable def step (par : Params)
    (solve : (ℝ → (Fin 13 → ℝ) → Option (Fin 13 → ℝ)) → ℝ → (Fin 13 → ℝ) → (Fin 13 → ℝ))
    (dt : ℝ) (s : QuadrotorState) (rotor_rates : Vec4) : QuadrotorState :=
  reconstitute
    (solve (wrapped_derivative par (u1_of par rotor_rates) (u2_of par rotor_rates))
      dt s.to_state_vector)

/-- The rest state: origin, identity orientation (xyzw storage `(0,0,0,1)`),
zero velocity and zero angular velocity. -/
def restState : QuadrotorState where
  position := 0
  orientation := ![0, 0, 0, 1]
  velocity := 0
  angular_velocity := 0

/-!  Helper lemmas shared by the claim theorems. -/

/-- Closed form of the mixing product `mixing_matrix @ F`. -/
theorem mulVec_mixing (par : Params) (F : Vec4) :
    (mixing_matrix par).mulVec F =
      ![F 0 + F 1 + F 2 + F 3,
        par.arm_length * F 1 - par.arm_length * F 3,
        par.arm_length * F 2 - par.arm_length * F 0,
        par.k_torque / par.k_thrust * F 0 - par.k_torque / par.k_thrust * F 1
          + par.k_torque / par.k_thrust * F 2 - par.k_torque / par.k_thrust * F 3] := by
  funext i
  fin_cases i <;>
    simp [mixing_matrix, Matrix.mulVec, Matrix.dotProduct, Fin.sum_univ_four] <;> ring

/-- Rotating any vector by the identity quaternion returns the vector. -/
theorem rotate_identity (v : Vec3) : rotate ![0, 0, 0, 1] v = v := by
  funext i
  fin_cases i <;> simp [rotate, cross3]

/-- The default inertia tensor is nonsingular. -/
theorem det_p_inertia : (p.inertia).det ≠ 0 := by
  simp only [p, Matrix.det_diagonal, Fin.prod_univ_three]
  norm_num

/-- The explicit inverse of the default (diagonal) inertia tensor. -/
noncomputable def inertia_inv : Mat3 :=
  Matrix.diagonal ![(9.8e-3 : ℝ)⁻¹, (10.02e-3 : ℝ)⁻¹, (18.6e-3 : ℝ)⁻¹]

/-- `inertia_inv` is a right inverse of the default inertia tensor. -/
theorem p_inertia_mul_inv : p.inertia * inertia_inv = 1 := by
  show Matrix.diagonal _ * Matrix.diagonal _ = 1
  rw [Matrix.diagonal_mul_diagonal]
  ext i j
  rcases eq_or_ne i j with h | h
  · subst h
    rw [Matrix.diagonal_apply_eq, Matrix.one_apply_eq]
    fin_cases i <;> norm_num
  · rw [Matrix.diagonal_apply_ne _ h, Matrix.one_apply_ne h]

/-- Mathlib's matrix inverse of the default inertia tensor is `inertia_inv`. -/
theorem p_inertia_inv_eq : (p.inertia)⁻¹ = inertia_inv :=
  Matrix.inv_eq_right_inv p_inertia_mul_inv

/-- `cross3` (the transcription of `np.cross`) is the standard cross product. -/
theorem cross3_eq_crossProduct (a b : Vec3) : cross3 a b = crossProduct a b := by
  rw [cross_apply]
  rfl

/-- `k_thrust` of the default parameters is positive. -/
theorem k_thrust_pos : 0 < p.k_thrust := by
  have hpi : 0 < Real.pi := Real.pi_pos
  show 0 < p.rho * p.static_thrust_coefficient * p.rotor_diameter ^ 4 / (4 * Real.pi ^ 2)
  have h1 : (0:ℝ) < p.rho * p.static_thrust_coefficient * p.rotor_diameter ^ 4 := by
    simp only [p]; norm_num
  positivity

/-- `k_torque` of the default parameters is positive. -/
theorem k_torque_pos : 0 < p.k_torque := by
  have hpi : 0 < Real.pi := Real.pi_pos
  show 0 < p.rho * p.static_torque_coefficient * p.rotor_diameter ^ 4 / (4 * Real.pi ^ 2)
  have h1 : (0:ℝ) < p.rho * p.static_torque_coefficient * p.rotor_diameter ^ 4 := by
    simp only [p]; norm_num
  positivity

/-- A normalized nonzero quaternion has unit Euclidean norm. -/
theorem quatNorm_normalized (q : Vec4) (h : q ≠ 0) :
    quatNorm (fun i => q i / quatNorm q) = 1 := by
  have hS : 0 < q 0 ^ 2 + q 1 ^ 2 + q 2 ^ 2 + q 3 ^ 2 := by
    rcases Classical.em (q 0 = 0 ∧ q 1 = 0 ∧ q 2 = 0 ∧ q 3 = 0) with hz | hz
    · exfalso
      apply h
      funext i
      fin_cases i
      · exact hz.1
      · exact hz.2.1
      · exact hz.2.2.1
      · exact hz.2.2.2
    · have h0 : q 0 ≠ 0 ∨ q 1 ≠ 0 ∨ q 2 ≠ 0 ∨ q 3 ≠ 0 := by tauto
      rcases h0 with h0 | h0 | h0 | h0 <;> positivity
  have hs : Real.sqrt (q 0 ^ 2 + q 1 ^ 2 + q 2 ^ 2 + q 3 ^ 2) ^ 2
      = q 0 ^ 2 + q 1 ^ 2 + q 2 ^ 2 + q 3 ^ 2 := Real.sq_sqrt hS.le
  show Real.sqrt _ = 1
  rw [show quatNorm q = Real.sqrt (q 0 ^ 2 + q 1 ^ 2 + q 2 ^ 2 + q 3 ^ 2) from rfl]
  rw [div_pow, div_pow, div_pow, div_pow, div_add_div_same, div_add_div_same,
    div_add_div_same, hs, div_self hS.ne']
  exact Real.sqrt_one

/-!  Claim theorems. -/

/-- Claim C10: `state_derivative` is time-invariant — for every pair of times
`t1`, `t2` and fixed state and inputs, the returned derivative is the same;
it depends only on the state and the inputs, never on the time argument. -/
theorem C10_state_derivative_time_invariant (par : Params) (t1 t2 : ℝ)
    (s : QuadrotorState) (u1 : ℝ) (u2 : Vec3) :
    state_derivative par t1 s u1 u2 = state_derivative par t2 s u1 u2 := rfl

/-- Claim C6: for every real 4-vector of rotor rates (negative entries
included), `rotor_thrust_model` returns the 4-vector with i-th component
`rate_i ^ 2 * k_thrust`; consequently it is invariant under negating the
rates — squaring absorbs the sign. -/
theorem C6_rotor_thrust_model_squares (r : Vec4) :
    (∀ i, rotor_thrust_model p r i = r i ^ 2 * p.k_thrust) ∧
    rotor_thrust_model p (-r) = rotor_thrust_model p r := by
  constructor
  · intro i
    show r i * r i * p.k_thrust = r i ^ 2 * p.k_thrust
    ring
  · funext i
    show (-r) i * (-r) i * p.k_thrust = r i * r i * p.k_thrust
    simp only [Pi.neg_apply]
    ring

/-- Claim C7: for every quaternion `R` with xyzw-ordered storage components
`(q0, q1, q2, q3)` and every body-frame angular velocity `omega`, `dRot3`
returns the quaternion time-derivative `(1/2) * G-transpose * omega`, with `G`
the 3x4 matrix rebuilt from the components of `R` itself at every evaluation;
the explicit component form is spelled out in the first conjunct. -/
theorem C7_dRot3_half_G_transpose (R : Rot3) (omega : Vec3) :
    dRot3 R omega =
      ![(R 3 * omega 0 - R 2 * omega 1 + R 1 * omega 2) / 2,
        (R 2 * omega 0 + R 3 * omega 1 - R 0 * omega 2) / 2,
        (-(R 1 * omega 0) + R 0 * omega 1 + R 3 * omega 2) / 2,
        (-(R 0 * omega 0) - R 1 * omega 1 - R 2 * omega 2) / 2] ∧
    ∀ j, dRot3 R omega j = (∑ i : Fin 3, G R i j * omega i) / 2 := by
  constructor
  · funext j
    fin_cases j <;>
      simp [dRot3, G, Matrix.mulVec, Matrix.dotProduct, Fin.sum_univ_three,
        Matrix.transpose_apply] <;> ring
  · intro j
    simp [dRot3, Matrix.mulVec, Matrix.dotProduct, Matrix.transpose_apply]

/-- Claim C5: for every 4-vector of rotor forces, the mixing step gives
`u1 = F1 + F2 + F3 + F4` (row 0 sums all four forces); rows 1 and 2 of the
mixing matrix contain only entries in `{0, L, -L}` with `L` the arm length;
and row 3 is `m_t = k_torque / k_thrust` with signs alternating by rotor
index. -/
theorem C5_mixing_matrix_structure (F : Vec4) :
    (mixing_matrix p).mulVec F 0 = F 0 + F 1 + F 2 + F 3 ∧
    (∀ j, mixing_matrix p 1 j ∈ ({0, p.arm_length, -p.arm_length} : Set ℝ)) ∧
    (∀ j, mixing_matrix p 2 j ∈ ({0, p.arm_length, -p.arm_length} : Set ℝ)) ∧
    (∀ j, mixing_matrix p 3 j = (-1) ^ (j : ℕ) * (p.k_torque / p.k_thrust)) := by
  refine ⟨?_, ?_, ?_, ?_⟩
  · rw [mulVec_mixing]
    simp
  · intro j
    fin_cases j <;> simp [mixing_matrix, Set.mem_insert_iff]
  · intro j
    fin_cases j <;> simp [mixing_matrix, Set.mem_insert_iff]
  · intro j
    fin_cases j <;> (simp [mixing_matrix]; try ring)

/-- Claim C2: for every state and torque input `u2`, the angular-velocity
derivative returned by `state_derivative` is `inertia_inverse` applied to
`u2 - angular_velocity x (inertia * angular_velocity)` — the rigid-body Euler
equation with the standard cross product — where `inertia_inv` is an actual
inverse of the inertia tensor, and `u2` enters directly in the body frame,
not rotated by the orientation. -/
theorem C2_angular_acceleration_euler (t : ℝ) (s : QuadrotorState)
    (u1 : ℝ) (u2 : Vec3) :
    (state_derivative p t s u1 u2).map QuadrotorState.angular_velocity =
      some (inertia_inv.mulVec
        (u2 - crossProduct s.angular_velocity ((p.inertia).mulVec s.angular_velocity))) ∧
    p.inertia * inertia_inv = 1 := by
  refine ⟨?_, p_inertia_mul_inv⟩
  simp only [state_derivative, if_neg det_p_inertia, Option.map_some]
  rw [p_inertia_inv_eq, cross3_eq_crossProduct]
  rfl

/-- The quaternion slice (positions 6..9) of a flat state vector. -/
def quatPart (y : Fin 13 → ℝ) : Vec4 := ![y 6, y 7, y 8, y 9]

/-- The raw flat vector produced by the internal ODE solve inside one
macro-step of `step`. -/
noncomputable def integrated (par : Params)
    (solve : (ℝ → (Fin 13 → ℝ) → Option (Fin 13 → ℝ)) → ℝ → (Fin 13 → ℝ) → (Fin 13 → ℝ))
    (dt : ℝ) (s : QuadrotorState) (rotor_rates : Vec4) : Fin 13 → ℝ :=
  solve (wrapped_derivative par (u1_of par rotor_rates) (u2_of par rotor_rates))
    dt s.to_state_vector

/-- A degenerate stand-in solver that returns the initial vector unchanged. -/
def trivialSolver :
    (ℝ → (Fin 13 → ℝ) → Option (Fin 13 → ℝ)) → ℝ → (Fin 13 → ℝ) → (Fin 13 → ℝ) :=
  fun f dt y0 => y0

/-- Claim C3: after every macro-step, the `State` that `step` stores and
returns has its orientation quaternion renormalized to unit norm, regardless
of the norm drift accumulated by the internal ODE integration (any solver
output whose quaternion slice is not the pathological zero). -/
theorem C3_step_orientation_unit_norm (par : Params)
    (solve : (ℝ → (Fin 13 → ℝ) → Option (Fin 13 → ℝ)) → ℝ → (Fin 13 → ℝ) → (Fin 13 → ℝ))
    (dt : ℝ) (s : QuadrotorState) (rotor_rates : Vec4)
    (h : quatPart (integrated par solve dt s rotor_rates) ≠ 0) :
    quatNorm (step par solve dt s rotor_rates).orientation = 1 :=
  quatNorm_normalized (quatPart (integrated par solve dt s rotor_rates)) h

/-- Witness for C3 at a concrete solver, state and input. -/
theorem C3_step_orientation_unit_norm_witness :
    quatPart (integrated p trivialSolver 0.01 restState ![0, 0, 0, 0]) ≠ 0 ∧
    quatNorm (step p trivialSolver 0.01 restState ![0, 0, 0, 0]).orientation = 1 := by
  have h : quatPart (integrated p trivialSolver 0.01 restState ![0, 0, 0, 0]) ≠ 0 := by
    intro hq
    have h3 := congrFun hq 3
    exact one_ne_zero h3
  exact ⟨h, C3_step_orientation_unit_norm p trivialSolver 0.01 restState ![0, 0, 0, 0] h⟩

/-- Claim C1, evaluated at the failing input (rest state, zero thrust, zero
torque): the code's velocity derivative is `(0, 0, -g/mass)` — the gravity
term is divided by the mass along with the thrust term, because the source
divides the whole sum `[0,0,-g] + R*[0,0,u1]` by `mass` — which differs from
the claimed value `(0, 0, -g)` since `mass = 1.352 /= 1`. -/
theorem C1_gravity_term_divided_by_mass :
    (state_derivative p 0 restState 0 0).map QuadrotorState.velocity =
      some ![0, 0, -p.g / p.mass] ∧
    (![0, 0, -p.g / p.mass] : Vec3) ≠ ![0, 0, -p.g] := by
  constructor
  · simp only [state_derivative, if_neg det_p_inertia]
    refine congrArg some ?_
    show (fun i => (![0, 0, -p.g] i + rotate ![0, 0, 0, 1] ![0, 0, (0:ℝ)] i) / p.mass)
      = ![0, 0, -p.g / p.mass]
    simp only [rotate_identity]
    funext i
    fin_cases i <;> simp
  · intro h
    have h2 := congrFun h 2
    simp only [Matrix.cons_val_two, Matrix.tail_cons, Matrix.head_cons] at h2
    rw [show p.g = (9.80665 : ℝ) from rfl, show p.mass = (1.352 : ℝ) from rfl] at h2
    norm_num at h2

/-- Claim C4, evaluated: with all four rotor rates zero the mixing yields
`u1 = 0` and `u2 = 0`, and at the rest state the angular-velocity derivative
is the zero vector as claimed, but the velocity derivative is
`(0, 0, -g/mass)`, not the claimed `(0, 0, -g)`. -/
theorem C4_zero_input_equilibrium_eval :
    u1_of p ![0, 0, 0, 0] = 0 ∧
    u2_of p ![0, 0, 0, 0] = 0 ∧
    (state_derivative p 0 restState (u1_of p ![0, 0, 0, 0])
        (u2_of p ![0, 0, 0, 0])).map QuadrotorState.velocity =
      some ![0, 0, -p.g / p.mass] ∧
    (state_derivative p 0 restState (u1_of p ![0, 0, 0, 0])
        (u2_of p ![0, 0, 0, 0])).map QuadrotorState.angular_velocity = some 0 ∧
    (![0, 0, -p.g / p.mass] : Vec3) ≠ ![0, 0, -p.g] := by
  have hF : rotor_thrust_model p ![0, 0, 0, 0] = ![0, 0, 0, 0] := by
    funext i
    fin_cases i <;> simp [rotor_thrust_model]
  have hu1 : u1_of p ![0, 0, 0, 0] = 0 := by
    rw [u1_of, mixed, hF, mulVec_mixing]
    simp
  have hu2 : u2_of p ![0, 0, 0, 0] = 0 := by
    funext i
    fin_cases i <;>
      (simp [u2_of, mixed, hF, mulVec_mixing]; try ring)
  refine ⟨hu1, hu2, ?_, ?_, ?_⟩
  · simp only [state_derivative, if_neg det_p_inertia, hu1]
    refine congrArg some ?_
    show (fun i => (![0, 0, -p.g] i + rotate ![0, 0, 0, 1] ![0, 0, (0:ℝ)] i) / p.mass)
      = ![0, 0, -p.g / p.mass]
    simp only [rotate_identity]
    funext i
    fin_cases i <;> simp
  · simp only [state_derivative, if_neg det_p_inertia, hu2]
    refine congrArg some ?_
    show (p.inertia)⁻¹.mulVec
        (0 - cross3 restState.angular_velocity
          ((p.inertia).mulVec restState.angular_velocity)) = 0
    have hcross : cross3 (0 : Vec3) ((p.inertia).mulVec (0 : Vec3)) = 0 := by
      funext i
      fin_cases i <;> simp [cross3]
    rw [show restState.angular_velocity = (0 : Vec3) from rfl, hcross]
    simp [Matrix.mulVec_zero]
  · intro h
    have h2 := congrFun h 2
    simp only [Matrix.cons_val_two, Matrix.tail_cons, Matrix.head_cons] at h2
    rw [show p.g = (9.80665 : ℝ) from rfl, show p.mass = (1.352 : ℝ) from rfl] at h2
    norm_num at h2

/-- The rest state's orientation is the identity quaternion. -/
theorem restState_orientation : restState.orientation = ![0, 0, 0, 1] := rfl

/-- The rest state's angular velocity is zero. -/
theorem restState_angular : restState.angular_velocity = 0 := rfl

/-- Cross product with a zero left factor vanishes. -/
theorem cross3_zero_left (b : Vec3) : cross3 0 b = 0 := by
  funext i
  fin_cases i <;> simp [cross3]

/-- A `Params` value built, as the dataclass permits, with a singular inertia
tensor: the dataclass runs no validation at construction. -/
noncomputable def singular_params : Params :=
  { p with inertia := Matrix.diagonal ![1, 1, 0] }

/-- Claim C9 counterexample: a singular inertia tensor is NOT rejected at
`Params` construction time — the constructed value simply carries the singular
tensor — and the very first `state_derivative` evaluation is where the
per-step inversion of the inertia tensor fails (the embedded
`np.linalg.inv` error). -/
theorem C9_counterexample :
    (singular_params.inertia).det = 0 ∧
    state_derivative singular_params 0 restState 0 0 = none := by
  have hdet : (singular_params.inertia).det = 0 := by
    simp [singular_params, Matrix.det_diagonal, Fin.prod_univ_three]
  exact ⟨hdet, by simp only [state_derivative, if_pos hdet]⟩

/-- Claim C9 amended: `Params` construction performs no positive-definiteness
check — a singular inertia tensor is accepted — and the inertia inversion
happens per step inside `state_derivative`, which is therefore the first
point of failure: with a singular inertia tensor every `state_derivative`
call fails. -/
theorem C9_no_construction_check_inversion_fails_per_step (par : Params)
    (h : (par.inertia).det = 0) (t : ℝ) (s : QuadrotorState) (u1 : ℝ) (u2 : Vec3) :
    state_derivative par t s u1 u2 = none := by
  simp only [state_derivative, if_pos h]

/-- Witness for the amended C9 at a concrete singular configuration. -/
theorem C9_no_construction_check_inversion_fails_per_step_witness :
    (singular_params.inertia).det = 0 ∧
    state_derivative singular_params 1 restState 5 ![1, 2, 3] = none := by
  have hdet : (singular_params.inertia).det = 0 := by
    simp [singular_params, Matrix.det_diagonal, Fin.prod_univ_three]
  exact ⟨hdet,
    C9_no_construction_check_inversion_fails_per_step singular_params hdet 1 restState 5 ![1, 2, 3]⟩

/-- The force perturbation of a rotor-rate vector around a common base rate:
the rotor forces minus the forces of the all-`base` rate vector. -/
noncomputable def force_perturbation (par : Params) (rotor_rates : Vec4) (base : ℝ) : Vec4 :=
  rotor_thrust_model par rotor_rates - rotor_thrust_model par ![base, base, base, base]

/-- Claim C8's hypothesis on a rotor-rate perturbation around a common base
rate: the resulting force perturbations cancel in row 0 (thrust) and rows 1-2
(roll/pitch) of the mixing matrix but not in row 3 (yaw). -/
def yaw_only_perturbation (par : Params) (rotor_rates : Vec4) (base : ℝ) : Prop :=
  (mixing_matrix par).mulVec (force_perturbation par rotor_rates base) 0 = 0 ∧
  (mixing_matrix par).mulVec (force_perturbation par rotor_rates base) 1 = 0 ∧
  (mixing_matrix par).mulVec (force_perturbation par rotor_rates base) 2 = 0 ∧
  (mixing_matrix par).mulVec (force_perturbation par rotor_rates base) 3 ≠ 0

/-- Claim C8 counterexample: the rotor rates `(7, 1, 7, 1)` around the common
base rate `5` satisfy the claim's cancellation hypothesis (force perturbations
`(24k, -24k, 24k, -24k)` cancel in the thrust and roll/pitch rows, not in the
yaw row), yet the translational acceleration of `state_derivative` at rest is
NOT zero: the total thrust `u1 = 100 k_thrust` is not the weight-cancelling
thrust, so the claimed zero translational acceleration fails. -/
theorem C8_counterexample :
    yaw_only_perturbation p ![7, 1, 7, 1] 5 ∧
    (state_derivative p 0 restState (u1_of p ![7, 1, 7, 1])
        (u2_of p ![7, 1, 7, 1])).map QuadrotorState.velocity ≠ some 0 := by
  have hkLt : p.k_thrust < 0.001 := by
    have hpi : (3 : ℝ) < Real.pi := Real.pi_gt_three
    have hpi2 : (9 : ℝ) < Real.pi ^ 2 := by nlinarith
    show p.rho * p.static_thrust_coefficient * p.rotor_diameter ^ 4
        / (4 * Real.pi ^ 2) < 0.001
    rw [div_lt_iff₀ (by positivity)]
    rw [show p.rho = (1.225 : ℝ) from rfl,
      show p.static_thrust_coefficient = (0.14553 : ℝ) from rfl,
      show p.rotor_diameter = ((10 : ℝ) * 0.0254) from rfl]
    nlinarith
  have hklt : 100 * p.k_thrust < p.g := by
    rw [show p.g = (9.80665 : ℝ) from rfl]
    linarith
  have hdF : force_perturbation p ![7, 1, 7, 1] 5 =
      ![24 * p.k_thrust, -(24 * p.k_thrust), 24 * p.k_thrust, -(24 * p.k_thrust)] := by
    funext i
    fin_cases i <;> (simp [force_perturbation, rotor_thrust_model]; ring)
  have hyaw : yaw_only_perturbation p ![7, 1, 7, 1] 5 := by
    refine ⟨?_, ?_, ?_, ?_⟩ <;> rw [hdF, mulVec_mixing]
    · simp
    · simp
    · simp
    · have hval : p.k_torque / p.k_thrust * (24 * p.k_thrust)
          - p.k_torque / p.k_thrust * -(24 * p.k_thrust)
          + p.k_torque / p.k_thrust * (24 * p.k_thrust)
          - p.k_torque / p.k_thrust * -(24 * p.k_thrust)
          = 96 * (p.k_torque / p.k_thrust * p.k_thrust) := by ring
      simp only [Matrix.cons_val_three, Matrix.cons_val_two, Matrix.cons_val_one,
        Matrix.cons_val_zero, Matrix.head_cons, Matrix.tail_cons]
      rw [hval, div_mul_cancel₀ _ k_thrust_pos.ne']
      exact mul_ne_zero (by norm_num) k_torque_pos.ne'
  have hu1 : u1_of p ![7, 1, 7, 1] = 100 * p.k_thrust := by
    rw [u1_of, mixed, mulVec_mixing]
    simp [rotor_thrust_model]
    ring
  refine ⟨hyaw, ?_⟩
  intro hcontra
  simp only [state_derivative, if_neg det_p_inertia, Option.map_some] at hcontra
  have hv := Option.some.inj hcontra
  have hc2 := congrFun hv 2
  simp only [restState_orientation, rotate_identity] at hc2
  simp only [Matrix.cons_val_two, Matrix.tail_cons, Matrix.head_cons,
    Pi.zero_apply] at hc2
  rw [div_eq_zero_iff] at hc2
  rcases hc2 with hc2 | hc2
  · rw [hu1] at hc2
    linarith
  · rw [show p.mass = (1.352 : ℝ) from rfl] at hc2
    norm_num at hc2

/-- Claim C8 amended: for every rotor-rate perturbation around a common base
rate whose force perturbations cancel in the thrust and roll/pitch rows but
not in the yaw row, the state derivative at rest has translational
acceleration with zero x and y components (purely vertical; it is zero only
at the weight-cancelling total thrust) and a nonzero angular acceleration
whose only nonzero component is about the body Z axis. -/
theorem C8_yaw_only_vertical_thrust (rotor_rates : Vec4) (base : ℝ)
    (h : yaw_only_perturbation p rotor_rates base) :
    ∃ d, state_derivative p 0 restState (u1_of p rotor_rates) (u2_of p rotor_rates)
        = some d ∧
      d.velocity 0 = 0 ∧ d.velocity 1 = 0 ∧
      d.angular_velocity 0 = 0 ∧ d.angular_velocity 1 = 0 ∧
      d.angular_velocity 2 ≠ 0 := by
  obtain ⟨h0, h1, h2, h3⟩ := h
  have hb1 : (mixing_matrix p).mulVec
      (rotor_thrust_model p ![base, base, base, base]) 1 = 0 := by
    rw [mulVec_mixing]
    simp [rotor_thrust_model]
  have hb2 : (mixing_matrix p).mulVec
      (rotor_thrust_model p ![base, base, base, base]) 2 = 0 := by
    rw [mulVec_mixing]
    simp [rotor_thrust_model]
  have hb3 : (mixing_matrix p).mulVec
      (rotor_thrust_model p ![base, base, base, base]) 3 = 0 := by
    rw [mulVec_mixing]
    simp [rotor_thrust_model]
    try ring
  have hsub : ∀ j, (mixing_matrix p).mulVec (force_perturbation p rotor_rates base) j
      = (mixing_matrix p).mulVec (rotor_thrust_model p rotor_rates) j
        - (mixing_matrix p).mulVec (rotor_thrust_model p ![base, base, base, base]) j := by
    intro j
    rw [mulVec_mixing, mulVec_mixing, mulVec_mixing]
    fin_cases j <;> (simp [force_perturbation, Pi.sub_apply]; ring)
  have hm1 : mixed p rotor_rates 1 = 0 := by
    have hs := hsub 1
    rw [hb1, sub_zero] at hs
    show (mixing_matrix p).mulVec (rotor_thrust_model p rotor_rates) 1 = 0
    rw [← hs]
    exact h1
  have hm2 : mixed p rotor_rates 2 = 0 := by
    have hs := hsub 2
    rw [hb2, sub_zero] at hs
    show (mixing_matrix p).mulVec (rotor_thrust_model p rotor_rates) 2 = 0
    rw [← hs]
    exact h2
  have hm3 : mixed p rotor_rates 3 ≠ 0 := by
    have hs := hsub 3
    rw [hb3, sub_zero] at hs
    show (mixing_matrix p).mulVec (rotor_thrust_model p rotor_rates) 3 ≠ 0
    rw [← hs]
    exact h3
  simp only [state_derivative, if_neg det_p_inertia]
  refine ⟨_, rfl, ?_, ?_, ?_, ?_, ?_⟩
  · show (![0, 0, -p.g] 0 + rotate restState.orientation ![0, 0, u1_of p rotor_rates] 0)
        / p.mass = 0
    simp only [restState_orientation, rotate_identity]
    simp
  · show (![0, 0, -p.g] 1 + rotate restState.orientation ![0, 0, u1_of p rotor_rates] 1)
        / p.mass = 0
    simp only [restState_orientation, rotate_identity]
    simp
  · show ((p.inertia)⁻¹.mulVec (u2_of p rotor_rates
        - cross3 restState.angular_velocity
          ((p.inertia).mulVec restState.angular_velocity))) 0 = 0
    simp only [restState_angular, cross3_zero_left, sub_zero, p_inertia_inv_eq,
      inertia_inv, Matrix.mulVec_diagonal, u2_of]
    simp [hm1]
  · show ((p.inertia)⁻¹.mulVec (u2_of p rotor_rates
        - cross3 restState.angular_velocity
          ((p.inertia).mulVec restState.angular_velocity))) 1 = 0
    simp only [restState_angular, cross3_zero_left, sub_zero, p_inertia_inv_eq,
      inertia_inv, Matrix.mulVec_diagonal, u2_of]
    simp [hm2]
  · show ((p.inertia)⁻¹.mulVec (u2_of p rotor_rates
        - cross3 restState.angular_velocity
          ((p.inertia).mulVec restState.angular_velocity))) 2 ≠ 0
    simp only [restState_angular, cross3_zero_left, sub_zero, p_inertia_inv_eq,
      inertia_inv, Matrix.mulVec_diagonal, u2_of]
    simp only [Matrix.cons_val_two, Matrix.tail_cons, Matrix.head_cons]
    exact mul_ne_zero (by norm_num) hm3

/-- Witness for the amended C8 at the concrete rates `(17, 7, 17, 7)` around
the base rate `13`. -/
theorem C8_yaw_only_vertical_thrust_witness :
    yaw_only_perturbation p ![17, 7, 17, 7] 13 ∧
    ∃ d, state_derivative p 0 restState (u1_of p ![17, 7, 17, 7])
        (u2_of p ![17, 7, 17, 7]) = some d ∧
      d.velocity 0 = 0 ∧ d.velocity 1 = 0 ∧
      d.angular_velocity 0 = 0 ∧ d.angular_velocity 1 = 0 ∧
      d.angular_velocity 2 ≠ 0 := by
  have hdF : force_perturbation p ![17, 7, 17, 7] 13 =
      ![120 * p.k_thrust, -(120 * p.k_thrust), 120 * p.k_thrust, -(120 * p.k_thrust)] := by
    funext i
    fin_cases i <;> (simp [force_perturbation, rotor_thrust_model]; ring)
  have h : yaw_only_perturbation p ![17, 7, 17, 7] 13 := by
    refine ⟨?_, ?_, ?_, ?_⟩ <;> rw [hdF, mulVec_mixing]
    · simp
    · simp
    · simp
    · have hval : p.k_torque / p.k_thrust * (120 * p.k_thrust)
          - p.k_torque / p.k_thrust * -(120 * p.k_thrust)
          + p.k_torque / p.k_thrust * (120 * p.k_thrust)
          - p.k_torque / p.k_thrust * -(120 * p.k_thrust)
          = 480 * (p.k_torque / p.k_thrust * p.k_thrust) := by ring
      simp only [Matrix.cons_val_three, Matrix.cons_val_two, Matrix.cons_val_one,
        Matrix.cons_val_zero, Matrix.head_cons, Matrix.tail_cons]
      rw [hval, div_mul_cancel₀ _ k_thrust_pos.ne']
      exact mul_ne_zero (by norm_num) k_torque_pos.ne'
  exact ⟨h, C8_yaw_only_vertical_thrust ![17, 7, 17, 7] 13 h⟩

end Quadrotor
